import Mathlib

/-!
Verification of the fraud-monitor scoring, brand-detection, alerting and
rate-limiting core.  Python floats are modelled as exact rationals (`ℚ`),
Python lists as `List`, the insertion-ordered keyword dictionary as an
association list, and optional values as `Option`.  Heterogeneous
bookkeeping dictionaries (`analysis_details`, alert message strings) carry
no information used by any property below and are omitted from the
corresponding structures.
-/

/-- Python `\s` / `str.strip` whitespace (ASCII range, as produced by the
text pipeline). -/
def pyIsSpace (c : Char) : Bool :=
  c == ' ' || c == '\t' || c == '\n' || c == '\r' || c == '\x0b' || c == '\x0c'

/-- Python `\w` word character (ASCII scope: the texts handled by the
pipeline). -/
def pyIsWordChar (c : Char) : Bool :=
  c.isAlphanum || c == '_'

/-- `re.sub(r'\s+', ' ', s)`: every maximal whitespace run becomes one
space.  The flag records whether the previous character was whitespace. -/
def collapseSpaces : Bool → List Char → List Char
  | _, [] => []
  | prevWs, c :: cs =>
    if pyIsSpace c then
      if prevWs then collapseSpaces true cs else ' ' :: collapseSpaces true cs
    else c :: collapseSpaces false cs

/-- `re.sub(r'[^\w\s\.\,\!\?\-]', ' ', s)` applied characterwise. -/
def keepAllowed (c : Char) : Char :=
  if pyIsWordChar c || pyIsSpace c || c == '.' || c == ',' || c == '!'
      || c == '?' || c == '-' then c else ' '

/-- Python `str.strip()` on a character list. -/
def stripEnds (l : List Char) : List Char :=
  ((l.dropWhile pyIsSpace).reverse.dropWhile pyIsSpace).reverse

/-- `TextPreprocessor.clean_text`: lowercase, collapse whitespace runs,
replace disallowed characters by spaces, strip. -/
def clean_text (s : String) : String :=
  (stripEnds ((collapseSpaces false (s.toList.map Char.toLower)).map keepAllowed)).asString

/-- Python `str.split()` (split on whitespace runs, dropping empties);
`acc` holds the current word reversed. -/
def splitWordsAux (acc : List Char) : List Char → List (List Char)
  | [] => if acc.isEmpty then [] else [acc.reverse]
  | c :: cs =>
    if pyIsSpace c then
      if acc.isEmpty then splitWordsAux [] cs else acc.reverse :: splitWordsAux [] cs
    else splitWordsAux (c :: acc) cs

def splitWords (s : String) : List String :=
  (splitWordsAux [] s.toList).map List.asString

/-- All contiguous `len`-grams of `words`, joined by single spaces
(`' '.join(words[i:i+length])` for `i in range(len(words)-length+1)`). -/
def ngrams (words : List String) (len : ℕ) : List String :=
  (List.range (words.length + 1 - len)).map
    (fun i => String.intercalate " " ((words.drop i).take len))

/-- `TextPreprocessor.extract_phrases` with the default
`max_phrase_length = 4`.  Python collects the phrases into a `set`; only
membership in the result is consumed downstream, so a list with possible
duplicates is an equivalent model. -/
def extract_phrases (text : String) : List String :=
  let words := splitWords (clean_text text)
  words ++ (List.range' 2 (min 4 words.length - 1)).flatMap (ngrams words)

/-- `FraudCategory` enumeration. -/
inductive FraudCategory where
  | scam | investment | phishing | cryptocurrency | romance
  | tech_support | lottery | employment | general
  deriving DecidableEq, Repr

/-- `FraudKeyword` dataclass (scores are exact rationals). -/
structure FraudKeyword where
  keyword : String
  category : FraudCategory
  score : ℚ
  description : String := ""
  deriving DecidableEq, Repr

/-- The insertion-ordered `KeywordManager._keywords` dictionary, keyed by
the normalized keyword. -/
abbrev KeywordStore := List (String × FraudKeyword)

/-- `keyword.strip().lower()`, the normalization applied by the keyword
manager before keying the dictionary. -/
def normalize_keyword (s : String) : String :=
  ((stripEnds s.toList).map Char.toLower).asString

/-- `KeywordManager.add_keyword`: constructing the `FraudKeyword` raises
(caught, returning `False`) when the score is out of `[0,1]` or the
normalized keyword is empty; an existing key
also returns `False`; otherwise the entry is appended (Python dicts
append new keys in insertion order). -/
def add_keyword (store : KeywordStore) (keyword : String) (category : FraudCategory)
    (score : ℚ) (description : String) : Bool × KeywordStore :=
  let norm := normalize_keyword keyword
  if ¬(0 ≤ score ∧ score ≤ 1) ∨ norm = "" then (false, store)
  else if (store.map Prod.fst).contains norm then (false, store)
  else (true, store ++ [(norm, ⟨norm, category, score, description⟩)])

/-- `KeywordManager.remove_keyword`: delete the entry under the
normalized key if present (`del` on a dict removes its unique entry). -/
def remove_keyword (store : KeywordStore) (keyword : String) : Bool × KeywordStore :=
  let norm := normalize_keyword keyword
  if (store.map Prod.fst).contains norm then
    (true, store.eraseP (fun p => p.1 == norm))
  else (false, store)

/-- `KeywordManager.get_all_keywords` = `list(self._keywords.values())`. -/
def get_all_keywords (store : KeywordStore) : List FraudKeyword :=
  store.map Prod.snd

/-- `ContextualFactors` dataclass. -/
structure ContextualFactors where
  sender_username : Option String := none
  group_name : Option String := none
  message_length : ℕ := 0
  has_media : Bool := false
  timestamp : Option ℚ := none
  urgency_indicators : List String := []
  financial_terms : List String := []
  contact_requests : List String := []
  deriving DecidableEq, Repr

/-- One alternative of a `\b(a1|a2|...)\b` pattern: a literal phrase, or
`\$\d+` (a dollar sign followed by one or more digits). -/
inductive PatAlt where
  | lit (s : String)
  | dollarNum
  deriving DecidableEq, Repr

/-- Match a literal character list at the head of the input, returning
the rest. -/
def matchLit : List Char → List Char → Option (List Char)
  | [], rest => some rest
  | _ :: _, [] => none
  | p :: ps, c :: cs => if p == c then matchLit ps cs else none

/-- `\b` between an optional previous character and a next character:
a boundary exists iff exactly one side is a word character (absent
characters count as non-word). -/
def wordBoundary (prev : Option Char) (next : Option Char) : Bool :=
  (match prev with | some c => pyIsWordChar c | none => false)
    != (match next with | some c => pyIsWordChar c | none => false)

/-- Try one alternative at the current position (`prev` is the character
just before it).  Returns the matched text and the remaining input.  For
`\$\d+` the digit run is greedy; a following word character makes every
digit split fail the trailing `\b`, so the alternative only matches when
the character after the digit run is absent or non-word. -/
def tryAlt (prev : Option Char) (s : List Char) : PatAlt → Option (List Char × List Char)
  | .lit p =>
    let pl := p.toList
    match matchLit pl s with
    | none => none
    | some rest =>
      if wordBoundary prev pl.head? && wordBoundary (pl.getLastD ' ') rest.head? then
        some (pl, rest)
      else none
  | .dollarNum =>
    match s with
    | '$' :: cs =>
      let ds := cs.takeWhile Char.isDigit
      let rest := cs.dropWhile Char.isDigit
      if ds.isEmpty then none
      else if wordBoundary prev (some '$') && wordBoundary (ds.getLastD '0') rest.head? then
        some ('$' :: ds, rest)
      else none
    | _ => none

/-- Try the alternatives in order (regex alternation preference). -/
def tryAlts (alts : List PatAlt) (prev : Option Char) (s : List Char) :
    Option (List Char × List Char) :=
  match alts with
  | [] => none
  | a :: rest =>
    match tryAlt prev s a with
    | some r => some r
    | none => tryAlts rest prev s

/-- `re.findall(r'\b(a1|a2|...)\b', s)`: scan left to right, emit each
non-overlapping leftmost match, resume after it.  Every match consumes at
least one character, so `fuel = s.length` bounds the recursion. -/
def findallAux (alts : List PatAlt) : ℕ → Option Char → List Char → List (List Char)
  | 0, _, _ => []
  | _, _, [] => []
  | fuel + 1, prev, c :: cs =>
    match tryAlts alts prev (c :: cs) with
    | some (m, rest) => m :: findallAux alts fuel (some (m.getLastD c)) rest
    | none => findallAux alts fuel (some c) cs

def findall (alts : List PatAlt) (s : String) : List String :=
  (findallAux alts s.toList.length none s.toList).map List.asString

/-- `ContextualAnalyzer.URGENCY_PATTERNS`, one alternation list per
regex. -/
def urgencyPatterns : List (List PatAlt) :=
  [[.lit "urgent", .lit "asap", .lit "immediately", .lit "now", .lit "quick",
    .lit "fast", .lit "hurry"],
   [.lit "limited time", .lit "expires", .lit "deadline", .lit "act now"],
   [.lit "last chance", .lit "final", .lit "ending soon"]]

/-- `ContextualAnalyzer.FINANCIAL_PATTERNS`. -/
def financialPatterns : List (List PatAlt) :=
  [[.lit "money", .lit "cash", .lit "payment", .lit "transfer", .lit "send",
    .lit "wire"],
   [.lit "bitcoin", .lit "crypto", .lit "investment", .lit "profit", .lit "earn"],
   [.lit "bank", .lit "account", .lit "card", .lit "paypal", .lit "venmo"],
   [.dollarNum, .lit "usd", .lit "dollars", .lit "euros", .lit "pounds"]]

/-- `ContextualAnalyzer.CONTACT_PATTERNS`. -/
def contactPatterns : List (List PatAlt) :=
  [[.lit "call me", .lit "text me", .lit "dm me", .lit "contact me"],
   [.lit "whatsapp", .lit "telegram", .lit "signal", .lit "discord"],
   [.lit "phone", .lit "number", .lit "email", .lit "address"]]

/-- `ContextualAnalyzer._find_patterns`: findall per regex on the
lowercased text, concatenated, then deduplicated (`list(set(...))`; the
set's iteration order is unspecified in Python and only the length and
emptiness of the result are consumed, so first-occurrence order is an
equivalent model). -/
def find_patterns (text : String) (families : List (List PatAlt)) : List String :=
  (families.flatMap (fun f => findall f text.toLower)).dedup

/-- Caller-supplied message context (the `context` dict of
`detect_fraud` / `analyze_context`). -/
structure MsgContext where
  sender_username : Option String := none
  group_name : Option String := none
  has_media : Bool := false
  timestamp : Option ℚ := none
  deriving DecidableEq, Repr

/-- `ContextualAnalyzer.analyze_context`. -/
def analyze_context (text : String) (context : Option MsgContext) : ContextualFactors :=
  { sender_username := context.bind (·.sender_username)
    group_name := context.bind (·.group_name)
    has_media := match context with | some c => c.has_media | none => false
    timestamp := context.bind (·.timestamp)
    message_length := text.length
    urgency_indicators := find_patterns text urgencyPatterns
    financial_terms := find_patterns text financialPatterns
    contact_requests := find_patterns text contactPatterns }

/-- The additional-keyword loop of
`AdvancedFraudScoreCalculator.calculate_base_score`:
`Σ score * (1/(i+1)) * 0.3` over the tail, with `i` enumerating from
`k`. -/
def extraSum : List ℚ → ℕ → ℚ
  | [], _ => 0
  | x :: xs, k => x * (1 / ((k : ℚ) + 1)) * (3 / 10) + extraSum xs (k + 1)

/-- `AdvancedFraudScoreCalculator.calculate_base_score`: sort the scores
descending; none → 0, one → that score, otherwise the top score plus the
diminishing tail contributions, capped at 1. -/
def calculate_base_score (detected_keywords : List FraudKeyword) : ℚ :=
  match (detected_keywords.map FraudKeyword.score).insertionSort (· ≥ ·) with
  | [] => 0
  | [s] => s
  | s :: snd :: rest => min (s + extraSum (snd :: rest) 1) 1

/-- Urgency boost: `min(len * 0.15, 0.3)` when any urgency indicator is
present. -/
def urgencyBoost (f : ContextualFactors) : ℚ :=
  if f.urgency_indicators.isEmpty then 0
  else min ((f.urgency_indicators.length : ℚ) * (15 / 100)) (3 / 10)

/-- Financial boost: `min(len * 0.1, 0.25)`. -/
def financialBoost (f : ContextualFactors) : ℚ :=
  if f.financial_terms.isEmpty then 0
  else min ((f.financial_terms.length : ℚ) * (1 / 10)) (25 / 100)

/-- Contact boost: `min(len * 0.1, 0.2)`. -/
def contactBoost (f : ContextualFactors) : ℚ :=
  if f.contact_requests.isEmpty then 0
  else min ((f.contact_requests.length : ℚ) * (1 / 10)) (2 / 10)

/-- Length boost: `+0.1` for positive length `< 20`, `+0.05` for length
`> 500`. -/
def lengthBoost (f : ContextualFactors) : ℚ :=
  if 0 < f.message_length then
    if f.message_length < 20 then 1 / 10
    else if 500 < f.message_length then 1 / 20
    else 0
  else 0

/-- Media boost: `+0.1` when media is present. -/
def mediaBoost (f : ContextualFactors) : ℚ :=
  if f.has_media then 1 / 10 else 0

/-- `AdvancedFraudScoreCalculator.calculate_contextual_multiplier`:
start at 1.0, apply the additive boosts, cap at 2.0. -/
def calculate_contextual_multiplier (f : ContextualFactors) : ℚ :=
  min (1 + urgencyBoost f + financialBoost f + contactBoost f + lengthBoost f
        + mediaBoost f) 2

/-- `AdvancedFraudScoreCalculator.calculate_category_diversity_bonus`. -/
def calculate_category_diversity_bonus (detected_keywords : List FraudKeyword) : ℚ :=
  let categories := (detected_keywords.map FraudKeyword.category).dedup
  if 4 ≤ categories.length then 1 / 5
  else if categories.length = 3 then 15 / 100
  else if categories.length = 2 then 8 / 100
  else 0

/-- The dictionary returned by
`AdvancedFraudScoreCalculator.calculate_advanced_score`. -/
structure ScoreBreakdown where
  base_score : ℚ
  contextual_multiplier : ℚ
  category_bonus : ℚ
  contextual_score : ℚ
  final_score : ℚ
  deriving DecidableEq, Repr

/-- `AdvancedFraudScoreCalculator.calculate_advanced_score`. -/
def calculate_advanced_score (detected_keywords : List FraudKeyword)
    (factors : ContextualFactors) : ScoreBreakdown :=
  let base_score := calculate_base_score detected_keywords
  let contextual_multiplier := calculate_contextual_multiplier factors
  let category_bonus := calculate_category_diversity_bonus detected_keywords
  let contextual_score := base_score * contextual_multiplier
  { base_score := base_score
    contextual_multiplier := contextual_multiplier
    category_bonus := category_bonus
    contextual_score := contextual_score
    final_score := min (contextual_score + category_bonus) 1 }

/-- `FraudDetectionConfig.SUSPICIOUS_THRESHOLD` (default of the
`FRAUD_SCORE_THRESHOLD` environment variable). -/
def SUSPICIOUS_THRESHOLD : ℚ := 7 / 10

/-- `FraudDetectionConfig.is_suspicious`. -/
def is_suspicious (score : ℚ) : Bool :=
  SUSPICIOUS_THRESHOLD ≤ score

/-- `DetectionResult` (the heterogeneous `analysis_details` dict is
omitted: no verified property reads it). -/
structure DetectionResult where
  is_suspicious : Bool
  fraud_score : ℚ
  detected_keywords : List String
  detection_method : String
  confidence_level : String
  deriving DecidableEq, Repr

/-- `DetectionResult.risk_level`. -/
def DetectionResult.risk_level (r : DetectionResult) : String :=
  if 9 / 10 ≤ r.fraud_score then "CRITICAL"
  else if 75 / 100 ≤ r.fraud_score then "HIGH"
  else if 1 / 2 ≤ r.fraud_score then "MEDIUM"
  else if 25 / 100 ≤ r.fraud_score then "LOW"
  else "MINIMAL"

/-- `FraudDetector._get_confidence_level`. -/
def get_confidence_level (score : ℚ) (keyword_count : ℕ) : String :=
  if 8 / 10 ≤ score ∧ 2 ≤ keyword_count then "VERY_HIGH"
  else if 6 / 10 ≤ score ∧ 1 ≤ keyword_count then "HIGH"
  else if 4 / 10 ≤ score then "MEDIUM"
  else if 2 / 10 ≤ score then "LOW"
  else "VERY_LOW"

/-- `FraudDetector._get_advanced_confidence_level`. -/
def get_advanced_confidence_level (score : ℚ) (keyword_count : ℕ)
    (factors : ContextualFactors) : String :=
  let base_confidence := get_confidence_level score keyword_count
  let contextual_boost :=
    (if factors.urgency_indicators.isEmpty then 0 else 1)
      + (if factors.financial_terms.isEmpty then 0 else 1)
      + (if factors.contact_requests.isEmpty then 0 else 1)
      + (if factors.has_media then 1 else 0)
  if 3 ≤ contextual_boost ∧ (base_confidence = "HIGH" ∨ base_confidence = "MEDIUM") then
    "VERY_HIGH"
  else if 2 ≤ contextual_boost ∧ base_confidence = "MEDIUM" then "HIGH"
  else if 1 ≤ contextual_boost ∧ base_confidence = "LOW" then "MEDIUM"
  else base_confidence

/-- `FraudDetector._create_empty_result`. -/
def create_empty_result : DetectionResult :=
  { is_suspicious := false
    fraud_score := 0
    detected_keywords := []
    detection_method := "none"
    confidence_level := "NONE" }

/-- `FraudDetector._detect_keywords`: keep, in store order, every keyword
appearing verbatim in the phrase set, or — if multi-word — whose every
constituent word appears in the phrase set. -/
def detect_keywords (all_keywords : List FraudKeyword) (phrases : List String) :
    List FraudKeyword :=
  all_keywords.filter (fun kw =>
    phrases.contains kw.keyword
      || (kw.keyword.contains ' ' && (splitWords kw.keyword).all phrases.contains))

/-- `FraudDetector.detect_fraud`; `all_keywords` models the keyword-store
snapshot returned by `keyword_manager.get_all_keywords()`. -/
def detect_fraud (all_keywords : List FraudKeyword) (text : String)
    (context : Option MsgContext) : DetectionResult :=
  if text.toList.all pyIsSpace then create_empty_result
  else
    let phrases := extract_phrases text
    let detected := detect_keywords all_keywords phrases
    let factors := analyze_context text context
    let breakdown := calculate_advanced_score detected factors
    { is_suspicious := is_suspicious breakdown.final_score
      fraud_score := breakdown.final_score
      detected_keywords := detected.map FraudKeyword.keyword
      detection_method := "advanced_contextual_analysis"
      confidence_level := get_advanced_confidence_level breakdown.final_score
        detected.length factors }

/-- The default keyword set installed by
`KeywordManager._load_default_keywords` (dictionary insertion order). -/
def default_keywords : List FraudKeyword :=
  [⟨"scam", .scam, 9/10, "Direct scam reference"⟩,
   ⟨"fraud", .scam, 9/10, "Direct fraud reference"⟩,
   ⟨"fake", .scam, 7/10, "Potentially fake content"⟩,
   ⟨"phishing", .phishing, 9/10, "Phishing attempt"⟩,
   ⟨"guaranteed profit", .investment, 9/10, "Unrealistic profit claims"⟩,
   ⟨"investment opportunity", .investment, 6/10, "Investment solicitation"⟩,
   ⟨"double your money", .investment, 8/10, "Unrealistic returns"⟩,
   ⟨"risk-free investment", .investment, 8/10, "False risk claims"⟩,
   ⟨"crypto giveaway", .cryptocurrency, 8/10, "Fake crypto giveaways"⟩,
   ⟨"send bitcoin", .cryptocurrency, 7/10, "Bitcoin solicitation"⟩,
   ⟨"mining pool", .cryptocurrency, 5/10, "Potential mining scam"⟩,
   ⟨"lonely", .romance, 4/10, "Romance scam indicator"⟩,
   ⟨"send money", .romance, 8/10, "Money solicitation"⟩,
   ⟨"emergency funds", .romance, 7/10, "Emergency money request"⟩,
   ⟨"tech support", .tech_support, 6/10, "Fake tech support"⟩,
   ⟨"virus detected", .tech_support, 7/10, "Fake virus warning"⟩,
   ⟨"computer infected", .tech_support, 7/10, "Fake infection claim"⟩,
   ⟨"congratulations winner", .lottery, 8/10, "Fake lottery win"⟩,
   ⟨"claim your prize", .lottery, 7/10, "Prize claim scam"⟩,
   ⟨"lottery winner", .lottery, 8/10, "Fake lottery notification"⟩,
   ⟨"work from home", .employment, 4/10, "Potential job scam"⟩,
   ⟨"easy money", .employment, 6/10, "Unrealistic earning claims"⟩,
   ⟨"no experience required", .employment, 3/10, "Suspicious job offer"⟩]

/-- `BrandMatch` dataclass of the brand detector. -/
structure BrandMatch where
  brand : String
  confidence : ℚ
  position : ℕ
  matched_text : String
  risk_level : String
  deriving DecidableEq, Repr

/-- `BrandDetector._calculate_confidence`: base 0.8 plus 0.1 when the
matched text equals the pattern case-insensitively, scaled by
`0.5 + risk_weight`, capped at 1 (`risk_weight` models
`config.get('risk_weight', 0.5)`). -/
def calculate_confidence (matched_text pattern : String) (risk_weight : ℚ) : ℚ :=
  let base_confidence : ℚ :=
    if matched_text.toLower = pattern.toLower then 8/10 + 1/10 else 8/10
  min (base_confidence * (1/2 + risk_weight)) 1

/-- `BrandDetector._assess_risk`: label from `confidence * risk_weight`. -/
def assess_risk (confidence risk_weight : ℚ) : String :=
  if 8/10 ≤ confidence * risk_weight then "HIGH"
  else if 6/10 ≤ confidence * risk_weight then "MEDIUM"
  else "LOW"

/-- `AlertType` enumeration. -/
inductive AlertType where
  | fraud_only | brand_only | combined
  deriving DecidableEq, Repr

/-- `AlertSeverity` enumeration. -/
inductive AlertSeverity where
  | low | medium | high | critical
  deriving DecidableEq, Repr

/-- The alert decision of `AlertManager.analyze_and_alert` (which alert
type, if any, is raised for a detection result and a brand-match list,
before rate limiting and delivery). -/
def alert_decision (fraud_result : DetectionResult)
    (brand_matches : List BrandMatch) : Option AlertType :=
  if fraud_result.is_suspicious then
    if brand_matches.isEmpty then some .fraud_only else some .combined
  else if ¬brand_matches.isEmpty
      ∧ ¬(brand_matches.filter (fun m =>
            m.risk_level == "high" || m.risk_level == "critical")).isEmpty then
    some .brand_only
  else none

/-- The `risk_weights` mapping of `AlertManager._calculate_risk_score`
(`.get(risk_level, 0.0)`). -/
def riskLevelWeight (risk_level : String) : ℚ :=
  if risk_level = "low" then 2/10
  else if risk_level = "medium" then 5/10
  else if risk_level = "high" then 8/10
  else if risk_level = "critical" then 1
  else 0

/-- `max([...], default=0.0)` over the per-match risk-level weights. -/
def brand_score_of (brand_matches : List BrandMatch) : ℚ :=
  match brand_matches.map (fun m => riskLevelWeight m.risk_level) with
  | [] => 0
  | w :: ws => ws.foldl max w

/-- The `if brand_matches:` truthiness guard of
`AlertManager._calculate_risk_score` (`None` or empty list → 0). -/
def manager_brand_score (brand_matches : Option (List BrandMatch)) : ℚ :=
  match brand_matches with
  | some ms => if ms.isEmpty then 0 else brand_score_of ms
  | none => 0

/-- `fraud_result.fraud_score if fraud_result else 0.0` as used by
`AlertManager._calculate_risk_score`. -/
def manager_fraud_score (fraud_result : Option DetectionResult) : ℚ :=
  match fraud_result with | some r => r.fraud_score | none => 0

/-- `AlertManager._calculate_risk_score`. -/
def manager_calculate_risk_score (fraud_result : Option DetectionResult)
    (brand_matches : Option (List BrandMatch)) : ℚ :=
  let fraud_score := manager_fraud_score fraud_result
  let brand_score := manager_brand_score brand_matches
  if 0 < fraud_score ∧ 0 < brand_score then
    min 1 (fraud_score * (7/10) + brand_score * (5/10))
  else if 0 < fraud_score then fraud_score
  else if 0 < brand_score then brand_score
  else 0

/-- `max(match.confidence for match in brand_matches)` guarded by the
truthiness check of `Alert._calculate_risk_score` (0 when absent or
empty). -/
def max_brand_confidence (brand_matches : Option (List BrandMatch)) : ℚ :=
  match brand_matches with
  | some (m :: ms) => (ms.map BrandMatch.confidence).foldl max m.confidence
  | _ => 0

/-- `fraud_result.fraud_score if fraud_result else 0.0`. -/
def opt_fraud_score (fraud_result : Option DetectionResult) : ℚ :=
  match fraud_result with | some r => r.fraud_score | none => 0

/-- `Alert._calculate_risk_score`, evaluated in `__post_init__` from the
alert's own fields. -/
def alert_calculate_risk_score (alert_type : AlertType)
    (fraud_result : Option DetectionResult)
    (brand_matches : Option (List BrandMatch)) : ℚ :=
  let fraud_score := opt_fraud_score fraud_result
  let brand_score := max_brand_confidence brand_matches
  match alert_type with
  | .combined => min (fraud_score * (6/10) + brand_score * (4/10) + 2/10) 1
  | .fraud_only => fraud_score
  | .brand_only => brand_score * (8/10)

/-- `Alert` dataclass (`context` and the generated `alert_message`
string are omitted: no verified property reads them). -/
structure Alert where
  alert_type : AlertType
  severity : AlertSeverity
  fraud_result : Option DetectionResult
  brand_matches : Option (List BrandMatch)
  risk_score : ℚ
  deriving DecidableEq, Repr

/-- Constructing an `Alert`: `__post_init__` overwrites the `risk_score`
argument with `self._calculate_risk_score()`. -/
def Alert.make (alert_type : AlertType) (severity : AlertSeverity)
    (fraud_result : Option DetectionResult)
    (brand_matches : Option (List BrandMatch)) (risk_score : ℚ) : Alert :=
  { alert_type := alert_type
    severity := severity
    fraud_result := fraud_result
    brand_matches := brand_matches
    risk_score := alert_calculate_risk_score alert_type fraud_result brand_matches }

/-- The rate-limiting state of `AlertManager`: configuration plus
mutable timestamp list and counters. -/
structure RateLimiterState where
  rate_limit_window : ℚ
  max_alerts_per_window : ℕ
  recent_alerts : List ℚ
  alerts_sent : ℕ
  alerts_suppressed : ℕ
  deriving DecidableEq, Repr

/-- `AlertManager._should_send_alert`: prune timestamps at or before
`now - window` (the filter keeps `alert_time > cutoff`), store the pruned
list back, and report whether the count is below the maximum. -/
def should_send_alert (s : RateLimiterState) (now : ℚ) : Bool × RateLimiterState :=
  let pruned := s.recent_alerts.filter (fun t => decide (now - s.rate_limit_window < t))
  (decide (pruned.length < s.max_alerts_per_window), { s with recent_alerts := pruned })

/-- `AlertManager.send_alert` (delivery succeeding): on suppression the
suppressed counter is incremented and nothing is appended; on success
`_update_rate_limit` appends the timestamp and increments `alerts_sent`,
and `send_alert` then increments `alerts_sent` once more. -/
def send_alert (s : RateLimiterState) (now : ℚ) : Bool × RateLimiterState :=
  let (ok, s1) := should_send_alert s now
  if ok then
    let s2 := { s1 with recent_alerts := s1.recent_alerts ++ [now],
                        alerts_sent := s1.alerts_sent + 1 }
    (true, { s2 with alerts_sent := s2.alerts_sent + 1 })
  else
    (false, { s1 with alerts_suppressed := s1.alerts_suppressed + 1 })

/-- Iterate `send_alert` over a list of attempt times, collecting the
success flags. -/
def send_many (s : RateLimiterState) : List ℚ → List Bool × RateLimiterState
  | [] => ([], s)
  | t :: ts =>
    let r := send_alert s t
    let rs := send_many r.2 ts
    (r.1 :: rs.1, rs.2)

/-- Modelled from the spec: the per-match confidence formula as the spec
sentence parenthesizes it — `min(0.8 + (0.1 if exact pattern-case match
else 0) × (0.5+risk_weight), 1.0)`, an additive bonus scaled by the risk
weight.  Stated for comparison with `calculate_confidence`, the formula
the code computes. -/
def claimed_confidence (matched_text pattern : String) (risk_weight : ℚ) : ℚ :=
  min (8/10 + (if matched_text.toLower = pattern.toLower then (1:ℚ)/10 else 0)
        * (1/2 + risk_weight)) 1

/-! ## Helper lemmas -/

lemma extraSum_nonneg (l : List ℚ) (k : ℕ) (h : ∀ x ∈ l, 0 ≤ x) :
    0 ≤ extraSum l k := by
  induction l generalizing k with
  | nil => simp [extraSum]
  | cons x xs ih =>
    have hx : (0:ℚ) ≤ x * (1 / ((k : ℚ) + 1)) * (3 / 10) := by
      have h0 := h x (by simp)
      have h1 : (0:ℚ) ≤ 1 / ((k : ℚ) + 1) := by positivity
      have h2 : (0:ℚ) ≤ 3 / 10 := by norm_num
      exact mul_nonneg (mul_nonneg h0 h1) h2
    have hxs := ih (k + 1) (fun y hy => h y (List.mem_cons_of_mem x hy))
    calc (0:ℚ) ≤ x * (1 / ((k : ℚ) + 1)) * (3 / 10) + extraSum xs (k + 1) :=
          add_nonneg hx hxs
      _ = extraSum (x :: xs) k := rfl

lemma extraSum_eq_sum (l : List ℚ) (k : ℕ) :
    extraSum l k
      = ∑ i ∈ Finset.range l.length, l.getD i 0 * (1 / ((k : ℚ) + i + 1)) * (3/10) := by
  induction l generalizing k with
  | nil => simp [extraSum]
  | cons x xs ih =>
    rw [show extraSum (x :: xs) k
        = x * (1 / ((k : ℚ) + 1)) * (3/10) + extraSum xs (k + 1) from rfl, ih (k + 1),
      List.length_cons, Finset.sum_range_succ']
    have hsum : ∑ i ∈ Finset.range xs.length,
        (x :: xs).getD (i + 1) 0 * (1 / ((k : ℚ) + ((i + 1 : ℕ) : ℚ) + 1)) * (3/10)
          = ∑ i ∈ Finset.range xs.length,
              xs.getD i 0 * (1 / (((k + 1 : ℕ) : ℚ) + (i : ℚ) + 1)) * (3/10) := by
      refine Finset.sum_congr rfl (fun i _ => ?_)
      rw [List.getD_cons_succ]
      push_cast
      ring
    rw [hsum, List.getD_cons_zero]
    push_cast
    ring

lemma base_score_nonneg (kws : List FraudKeyword)
    (h : ∀ kw ∈ kws, 0 ≤ kw.score) : 0 ≤ calculate_base_score kws := by
  have hmem : ∀ x ∈ (kws.map FraudKeyword.score).insertionSort (· ≥ ·), 0 ≤ x := by
    intro x hx
    have hx' : x ∈ kws.map FraudKeyword.score :=
      ((kws.map FraudKeyword.score).perm_insertionSort (· ≥ ·)).mem_iff.mp hx
    obtain ⟨kw, hkw, rfl⟩ := List.mem_map.mp hx'
    exact h kw hkw
  unfold calculate_base_score
  split
  · norm_num
  · next s heq => exact hmem s (by rw [heq]; simp)
  · next s snd rest heq =>
    have h1 : 0 ≤ s := hmem s (by rw [heq]; simp)
    have h2 : 0 ≤ extraSum (snd :: rest) 1 := by
      refine extraSum_nonneg _ _ (fun y hy => hmem y ?_)
      rw [heq]
      exact List.mem_cons_of_mem s hy
    exact le_min (by linarith) (by norm_num)

lemma urgencyBoost_nonneg (f : ContextualFactors) : 0 ≤ urgencyBoost f := by
  unfold urgencyBoost
  split
  · norm_num
  · exact le_min (by positivity) (by norm_num)

lemma financialBoost_nonneg (f : ContextualFactors) : 0 ≤ financialBoost f := by
  unfold financialBoost
  split
  · norm_num
  · exact le_min (by positivity) (by norm_num)

lemma contactBoost_nonneg (f : ContextualFactors) : 0 ≤ contactBoost f := by
  unfold contactBoost
  split
  · norm_num
  · exact le_min (by positivity) (by norm_num)

lemma lengthBoost_nonneg (f : ContextualFactors) : 0 ≤ lengthBoost f := by
  unfold lengthBoost
  split <;> [skip; norm_num]
  split <;> [norm_num; skip]
  split <;> norm_num

lemma mediaBoost_nonneg (f : ContextualFactors) : 0 ≤ mediaBoost f := by
  unfold mediaBoost
  split <;> norm_num

lemma contextual_multiplier_nonneg (f : ContextualFactors) :
    0 ≤ calculate_contextual_multiplier f := by
  unfold calculate_contextual_multiplier
  have h1 := urgencyBoost_nonneg f
  have h2 := financialBoost_nonneg f
  have h3 := contactBoost_nonneg f
  have h4 := lengthBoost_nonneg f
  have h5 := mediaBoost_nonneg f
  exact le_min (by linarith) (by norm_num)

lemma category_bonus_nonneg (kws : List FraudKeyword) :
    0 ≤ calculate_category_diversity_bonus kws := by
  simp only [calculate_category_diversity_bonus]
  split_ifs <;> norm_num

/-! ## Claim theorems -/

/-- C4: for every fraud score in `[0,1]` the derived risk level is
exactly one of MINIMAL, LOW, MEDIUM, HIGH, CRITICAL with inclusive lower
boundaries (`≥ 0.9` CRITICAL, `[0.75, 0.9)` HIGH, `[0.5, 0.75)` MEDIUM,
`[0.25, 0.5)` LOW, below `0.25` MINIMAL); exactly `0.9` maps to CRITICAL
and `0.89999` to HIGH; and the risk level is a pure function of the
fraud score alone. -/
theorem risk_level_thresholds (r : DetectionResult)
    (h0 : 0 ≤ r.fraud_score) (h1 : r.fraud_score ≤ 1) :
    (9/10 ≤ r.fraud_score → r.risk_level = "CRITICAL") ∧
    (75/100 ≤ r.fraud_score → r.fraud_score < 9/10 → r.risk_level = "HIGH") ∧
    (1/2 ≤ r.fraud_score → r.fraud_score < 75/100 → r.risk_level = "MEDIUM") ∧
    (25/100 ≤ r.fraud_score → r.fraud_score < 1/2 → r.risk_level = "LOW") ∧
    (r.fraud_score < 25/100 → r.risk_level = "MINIMAL") ∧
    (r.risk_level = "MINIMAL" ∨ r.risk_level = "LOW" ∨ r.risk_level = "MEDIUM"
      ∨ r.risk_level = "HIGH" ∨ r.risk_level = "CRITICAL") ∧
    (∀ r' : DetectionResult, r'.fraud_score = r.fraud_score →
      r'.risk_level = r.risk_level) ∧
    (r.fraud_score = 9/10 → r.risk_level = "CRITICAL") ∧
    (r.fraud_score = 89999/100000 → r.risk_level = "HIGH") := by
  unfold DetectionResult.risk_level
  refine ⟨fun h => if_pos h, fun ha hb => ?_, fun ha hb => ?_, fun ha hb => ?_,
    fun h => ?_, by split_ifs <;> simp, fun r' h => by rw [h], fun h => ?_, fun h => ?_⟩
  · rw [if_neg (by linarith), if_pos ha]
  · rw [if_neg (by linarith), if_neg (by linarith), if_pos ha]
  · rw [if_neg (by linarith), if_neg (by linarith), if_neg (by linarith), if_pos ha]
  · rw [if_neg (by linarith), if_neg (by linarith), if_neg (by linarith),
      if_neg (by linarith)]
  · rw [if_pos (by rw [h])]
  · rw [if_neg (by rw [h]; norm_num), if_pos (by rw [h]; norm_num)]

/-- C4 witness: at fraud score exactly `0.9` the theorem yields
CRITICAL. -/
theorem risk_level_thresholds_witness :
    (0 ≤ ((9:ℚ)/10) ∧ ((9:ℚ)/10) ≤ 1) ∧
    (DetectionResult.mk false (9/10) [] "m" "c").risk_level = "CRITICAL" :=
  ⟨by norm_num,
    (risk_level_thresholds ⟨false, 9/10, [], "m", "c"⟩ (by norm_num) (by norm_num)).1
      (by norm_num)⟩

/-- C5: on empty or whitespace-only input, `detect_fraud` returns the
zero-valued empty result (`is_suspicious = false`, `fraud_score = 0`,
no detected keywords), independently of the keyword-store snapshot and
context — a defined empty case, not an error. -/
theorem detect_fraud_empty_input (all_keywords all_keywords' : List FraudKeyword)
    (context : Option MsgContext) (text : String)
    (h : text.toList.all pyIsSpace = true) :
    detect_fraud all_keywords text context = create_empty_result ∧
    (detect_fraud all_keywords text context).is_suspicious = false ∧
    (detect_fraud all_keywords text context).fraud_score = 0 ∧
    (detect_fraud all_keywords text context).detected_keywords = [] ∧
    detect_fraud all_keywords text context = detect_fraud all_keywords' text context := by
  have e : ∀ kws : List FraudKeyword,
      detect_fraud kws text context = create_empty_result := by
    intro kws
    unfold detect_fraud
    rw [if_pos h]
  exact ⟨e all_keywords, by rw [e all_keywords]; rfl, by rw [e all_keywords]; rfl,
    by rw [e all_keywords]; rfl, (e all_keywords).trans (e all_keywords').symm⟩

/-- C5 witness: the empty string and a whitespace-only string both
produce the empty result, for two different keyword stores. -/
theorem detect_fraud_empty_input_witness :
    ("".toList.all pyIsSpace = true ∧ "  ".toList.all pyIsSpace = true) ∧
    detect_fraud default_keywords "" none = create_empty_result ∧
    detect_fraud default_keywords "  " none = detect_fraud [] "  " none :=
  ⟨⟨by decide, by decide⟩,
    (detect_fraud_empty_input default_keywords [] none "" (by decide)).1,
    (detect_fraud_empty_input default_keywords [] none "  " (by decide)).2.2.2.2⟩

/-- C8 counterexample: the claim's formula
`min(0.8 + (0.1 if exact else 0) × (0.5+risk_weight), 1.0)` disagrees
with the code at `matched_text = pattern = "paypal"`, `risk_weight
= 0.9`: the code computes `min((0.8+0.1) × (0.5+0.9), 1) = 1`, the
claimed formula `0.94`. -/
theorem calculate_confidence_ne_claimed :
    calculate_confidence "paypal" "paypal" (9/10) = 1 ∧
    claimed_confidence "paypal" "paypal" (9/10) = 94/100 ∧
    calculate_confidence "paypal" "paypal" (9/10)
      ≠ claimed_confidence "paypal" "paypal" (9/10) := by
  norm_num [calculate_confidence, claimed_confidence]

/-- C8 (amended): the confidence is
`min((0.8 + (0.1 if exact case-insensitive match else 0)) × (0.5 +
risk_weight), 1)` — the whole base is scaled by `0.5 + risk_weight` —
and for `risk_weight ∈ [0,1]` the result lies in `[0,1]`. -/
theorem calculate_confidence_spec (matched_text pattern : String) (risk_weight : ℚ)
    (h0 : 0 ≤ risk_weight) (h1 : risk_weight ≤ 1) :
    calculate_confidence matched_text pattern risk_weight
      = min ((8/10 + (if matched_text.toLower = pattern.toLower then (1:ℚ)/10 else 0))
          * (1/2 + risk_weight)) 1 ∧
    0 ≤ calculate_confidence matched_text pattern risk_weight ∧
    calculate_confidence matched_text pattern risk_weight ≤ 1 := by
  have key : calculate_confidence matched_text pattern risk_weight
      = min ((8/10 + (if matched_text.toLower = pattern.toLower then (1:ℚ)/10 else 0))
          * (1/2 + risk_weight)) 1 := by
    unfold calculate_confidence
    by_cases hcase : matched_text.toLower = pattern.toLower
    · rw [if_pos hcase, if_pos hcase]
    · rw [if_neg hcase, if_neg hcase]
      norm_num
  refine ⟨key, ?_, ?_⟩
  · rw [key]
    refine le_min (mul_nonneg ?_ (by linarith)) (by norm_num)
    split_ifs <;> norm_num
  · rw [key]
    exact min_le_right _ _

/-- C8 witness: the amended formula at `("PayPal", "paypal", 0.9)`. -/
theorem calculate_confidence_spec_witness :
    ((0:ℚ) ≤ 9/10 ∧ (9:ℚ)/10 ≤ 1) ∧
    (calculate_confidence "PayPal" "paypal" (9/10)
        = min ((8/10 + (if "PayPal".toLower = "paypal".toLower then (1:ℚ)/10 else 0))
            * (1/2 + 9/10)) 1 ∧
      0 ≤ calculate_confidence "PayPal" "paypal" (9/10) ∧
      calculate_confidence "PayPal" "paypal" (9/10) ≤ 1) :=
  ⟨by norm_num, calculate_confidence_spec "PayPal" "paypal" (9/10) (by norm_num) (by norm_num)⟩

/-- C9 counterexample: with keyword "scam" already stored, `add("scam")`
fails without modifying the store but `remove("scam")` then deletes the
pre-existing entry, so add-then-remove does not restore the prior
`list_all` set. -/
theorem add_remove_roundtrip_fails_on_existing :
    get_all_keywords (remove_keyword (add_keyword
        [("scam", ⟨"scam", .scam, 9/10, "d"⟩)] "scam" .scam (9/10) "x").2 "scam").2 = [] ∧
    (⟨"scam", .scam, 9/10, "d"⟩ : FraudKeyword)
      ∈ get_all_keywords [("scam", ⟨"scam", .scam, 9/10, "d"⟩)] ∧
    get_all_keywords (remove_keyword (add_keyword
        [("scam", ⟨"scam", .scam, 9/10, "d"⟩)] "scam" .scam (9/10) "x").2 "scam").2
      ≠ get_all_keywords [("scam", ⟨"scam", .scam, 9/10, "d"⟩)] := by
  norm_num [get_all_keywords, add_keyword, remove_keyword,
    show normalize_keyword "scam" = "scam" by decide]

/-- C9 (amended): provided the normalized keyword is not already a key
of the store, `add_keyword` followed by `remove_keyword` restores the
store exactly (hence its `get_all_keywords` set, order-independently). -/
theorem add_remove_roundtrip_of_fresh (store : KeywordStore) (keyword : String)
    (category : FraudCategory) (score : ℚ) (description : String)
    (h : normalize_keyword keyword ∉ store.map Prod.fst) :
    (remove_keyword (add_keyword store keyword category score description).2 keyword).2
      = store ∧
    get_all_keywords
        (remove_keyword (add_keyword store keyword category score description).2 keyword).2
      = get_all_keywords store := by
  have hcont : (store.map Prod.fst).contains (normalize_keyword keyword) = false := by
    simpa using h
  suffices hs : (remove_keyword
      (add_keyword store keyword category score description).2 keyword).2 = store by
    exact ⟨hs, by rw [hs]⟩
  simp only [add_keyword]
  by_cases hv : ¬(0 ≤ score ∧ score ≤ 1) ∨ normalize_keyword keyword = ""
  · rw [if_pos hv]
    simp only [remove_keyword]
    rw [hcont]
    simp
  · rw [if_neg hv, if_neg (by rw [hcont]; simp)]
    simp only [remove_keyword]
    have hc : (((store ++ [(normalize_keyword keyword,
        (⟨normalize_keyword keyword, category, score, description⟩ : FraudKeyword))]).map
          Prod.fst).contains (normalize_keyword keyword)) = true := by
      simp
    rw [if_pos hc]
    have key : (store ++ [(normalize_keyword keyword,
        (⟨normalize_keyword keyword, category, score, description⟩ : FraudKeyword))]).eraseP
          (fun p => p.1 == normalize_keyword keyword) = store := by
      rw [List.eraseP_append_right _ (by
        intro b hb
        simp only [beq_iff_eq]
        intro hbeq
        exact h (hbeq ▸ List.mem_map_of_mem Prod.fst hb))]
      simp
    exact key

/-- C9 witness: the round trip at a concrete fresh keyword over a
non-empty store. -/
theorem add_remove_roundtrip_of_fresh_witness :
    normalize_keyword "scam" ∉ ([("fraud", ⟨"fraud", .scam, 9/10, "d"⟩)] :
        KeywordStore).map Prod.fst ∧
    (remove_keyword (add_keyword [("fraud", ⟨"fraud", .scam, 9/10, "d"⟩)]
        "scam" .scam (9/10) "x").2 "scam").2
      = [("fraud", ⟨"fraud", .scam, 9/10, "d"⟩)] :=
  ⟨by decide,
    (add_remove_roundtrip_of_fresh [("fraud", ⟨"fraud", .scam, 9/10, "d"⟩)]
      "scam" .scam (9/10) "x" (by decide)).1⟩

/-- C10: the `risk_score` argument passed to the `Alert` constructor is
discarded: the stored value is recomputed from the alert's own fields
via the highest brand-match confidence — COMBINED:
`min(fraud×0.6 + max_conf×0.4 + 0.2, 1)`, FRAUD_ONLY: `fraud`,
BRAND_ONLY: `max_conf×0.8` — and can differ from the manager-level
combined risk score the alert decision was made on. -/
theorem alert_risk_score_recomputed (ty : AlertType) (sev : AlertSeverity)
    (fr : Option DetectionResult) (bm : Option (List BrandMatch)) (x y : ℚ) :
    (Alert.make ty sev fr bm x).risk_score = (Alert.make ty sev fr bm y).risk_score ∧
    (Alert.make ty sev fr bm x).risk_score = alert_calculate_risk_score ty fr bm ∧
    (ty = .combined → (Alert.make ty sev fr bm x).risk_score
        = min (opt_fraud_score fr * (6/10) + max_brand_confidence bm * (4/10) + 2/10) 1) ∧
    (ty = .fraud_only → (Alert.make ty sev fr bm x).risk_score = opt_fraud_score fr) ∧
    (ty = .brand_only → (Alert.make ty sev fr bm x).risk_score
        = max_brand_confidence bm * (8/10)) ∧
    (Alert.make .brand_only sev (some create_empty_result)
        (some [⟨"PayPal", 9/10, 0, "paypal", "high"⟩]) x).risk_score
      ≠ manager_calculate_risk_score (some create_empty_result)
          (some [⟨"PayPal", 9/10, 0, "paypal", "high"⟩]) := by
  refine ⟨rfl, rfl, fun h => ?_, fun h => ?_, fun h => ?_, ?_⟩
  · subst h; rfl
  · subst h; rfl
  · subst h; rfl
  · norm_num [Alert.make, alert_calculate_risk_score, max_brand_confidence,
      opt_fraud_score, create_empty_result, manager_calculate_risk_score,
      manager_fraud_score, manager_brand_score, brand_score_of, riskLevelWeight,
      show ("high" : String) ≠ "low" by decide,
      show ("high" : String) ≠ "medium" by decide,
      show ("high" : String) = "high" from rfl]

/-- C10 witness: a COMBINED alert at concrete inputs, two different
discarded `risk_score` arguments. -/
theorem alert_risk_score_recomputed_witness :
    (AlertType.combined = AlertType.combined) ∧
    (Alert.make .combined .high (some create_empty_result) none (3/4)).risk_score
      = min (opt_fraud_score (some create_empty_result) * (6/10)
          + max_brand_confidence none * (4/10) + 2/10) 1 :=
  ⟨rfl, (alert_risk_score_recomputed .combined .high (some create_empty_result)
      none (3/4) 0).2.2.1 rfl⟩

/-- C6: the combined manager risk score is
`min(1, fraud×0.7 + brand×0.5)` when both signals are present (brand
score = max over matches of the mapping low→0.2, medium→0.5, high→0.8,
critical→1.0), the fraud score when only fraud is present, the brand
score when only brand is present, and 0 when neither is. -/
theorem manager_risk_score_cases (fr : DetectionResult) (ms : List BrandMatch) :
    (0 < fr.fraud_score → 0 < brand_score_of ms →
      manager_calculate_risk_score (some fr) (some ms)
        = min 1 (fr.fraud_score * (7/10) + brand_score_of ms * (5/10))) ∧
    (0 < fr.fraud_score → manager_calculate_risk_score (some fr) none = fr.fraud_score) ∧
    (0 < fr.fraud_score → brand_score_of ms = 0 →
      manager_calculate_risk_score (some fr) (some ms) = fr.fraud_score) ∧
    (fr.fraud_score = 0 → 0 < brand_score_of ms →
      manager_calculate_risk_score (some fr) (some ms) = brand_score_of ms) ∧
    (fr.fraud_score = 0 → brand_score_of ms = 0 →
      manager_calculate_risk_score (some fr) (some ms) = 0) ∧
    (fr.fraud_score = 0 → manager_calculate_risk_score (some fr) none = 0) := by
  have hbrand : ∀ h : 0 < brand_score_of ms,
      manager_brand_score (some ms) = brand_score_of ms := by
    intro hb
    cases ms with
    | nil => simp [brand_score_of] at hb
    | cons m tl => simp [manager_brand_score]
  have hbrand0 : ∀ h : brand_score_of ms = 0,
      manager_brand_score (some ms) = 0 := by
    intro hb
    cases ms with
    | nil => simp [manager_brand_score]
    | cons m tl => simp [manager_brand_score, hb]
  refine ⟨fun hf hb => ?_, fun hf => ?_, fun hf hb => ?_, fun hf hb => ?_,
    fun hf hb => ?_, fun hf => ?_⟩
  · simp only [manager_calculate_risk_score, manager_fraud_score, hbrand hb]
    rw [if_pos ⟨hf, hb⟩]
  · simp only [manager_calculate_risk_score, manager_fraud_score, manager_brand_score]
    rw [if_neg (by simp), if_pos hf]
  · simp only [manager_calculate_risk_score, manager_fraud_score, hbrand0 hb]
    rw [if_neg (by simp), if_pos hf]
  · simp only [manager_calculate_risk_score, manager_fraud_score, hbrand hb, hf]
    rw [if_neg (by simp), if_neg (by simp), if_pos hb]
  · simp only [manager_calculate_risk_score, manager_fraud_score, hbrand0 hb, hf]
    rw [if_neg (by simp), if_neg (by simp), if_neg (by simp)]
  · simp only [manager_calculate_risk_score, manager_fraud_score,
      manager_brand_score, hf]
    rw [if_neg (by simp), if_neg (by simp), if_neg (by simp)]

/-- C6 witness: both signals present at concrete values
(`fraud = 0.5`, one high-risk brand match, brand score `0.8`). -/
theorem manager_risk_score_cases_witness :
    (0 < (DetectionResult.mk true (1/2) [] "m" "c").fraud_score ∧
      0 < brand_score_of [⟨"B", 1, 0, "b", "high"⟩]) ∧
    manager_calculate_risk_score (some ⟨true, 1/2, [], "m", "c"⟩)
        (some [⟨"B", 1, 0, "b", "high"⟩])
      = min 1 ((DetectionResult.mk true (1/2) [] "m" "c").fraud_score * (7/10)
          + brand_score_of [⟨"B", 1, 0, "b", "high"⟩] * (5/10)) :=
  ⟨⟨by norm_num, by norm_num [brand_score_of, riskLevelWeight,
      show ("high" : String) ≠ "low" by decide,
      show ("high" : String) ≠ "medium" by decide]⟩,
    (manager_risk_score_cases ⟨true, 1/2, [], "m", "c"⟩ [⟨"B", 1, 0, "b", "high"⟩]).1
      (by norm_num)
      (by norm_num [brand_score_of, riskLevelWeight,
        show ("high" : String) ≠ "low" by decide,
        show ("high" : String) ≠ "medium" by decide])⟩

/-- C1: the code never raises the BRAND_ONLY alert the claim describes:
for the text `"paypal"` the brand match's confidence is 1 and its
assessed risk level is the uppercase string `"HIGH"`, but the decision
logic filters for the lowercase strings `"high"`/`"critical"`, so with a
non-suspicious fraud result no alert is raised, contradicting the
claimed BRAND_ONLY alert. -/
theorem brand_only_alert_never_fires_on_assessed_risk :
    calculate_confidence "paypal" "paypal" (9/10) = 1 ∧
    assess_risk (calculate_confidence "paypal" "paypal" (9/10)) (9/10) = "HIGH" ∧
    alert_decision ⟨false, 0, [], "advanced_contextual_analysis", "VERY_LOW"⟩
      [⟨"PayPal", calculate_confidence "paypal" "paypal" (9/10), 0, "paypal",
        assess_risk (calculate_confidence "paypal" "paypal" (9/10)) (9/10)⟩] = none := by
  refine ⟨by norm_num [calculate_confidence],
    by norm_num [assess_risk, calculate_confidence], ?_⟩
  norm_num [alert_decision, assess_risk, calculate_confidence,
    show ("HIGH" : String) ≠ "high" by decide,
    show ("HIGH" : String) ≠ "critical" by decide]

/-- C2 counterexample: for scores `[0.9, 0.8, 0.7]` the raw sum
`0.9 + 0.8·(1/2)·0.3 + 0.7·(1/3)·0.3 = 1.09` exceeds 1, so the base
score (which is clamped) equals 1 and not the claimed raw sum. -/
theorem base_score_example_ne_raw_sum :
    calculate_base_score [⟨"scam", .scam, 9/10, "Direct scam reference"⟩,
        ⟨"double your money", .investment, 8/10, "Unrealistic returns"⟩,
        ⟨"fake", .scam, 7/10, "Potentially fake content"⟩] = 1 ∧
    (9/10 + (8/10) * ((1:ℚ)/2) * (3/10) + (7/10) * ((1:ℚ)/3) * (3/10)) = 109/100 ∧
    calculate_base_score [⟨"scam", .scam, 9/10, "Direct scam reference"⟩,
        ⟨"double your money", .investment, 8/10, "Unrealistic returns"⟩,
        ⟨"fake", .scam, 7/10, "Potentially fake content"⟩]
      ≠ 9/10 + (8/10) * ((1:ℚ)/2) * (3/10) + (7/10) * ((1:ℚ)/3) * (3/10) := by
  norm_num [calculate_base_score, extraSum, List.insertionSort, List.orderedInsert]

/-- C2 (amended): the base score is 0 for no matches, the single score
for one match, and otherwise — with scores sorted descending —
`scores[0] + Σ_{i=1}^{n-1} scores[i]·(1/(i+1))·0.3` clamped to at most
1; for scores `[0.9, 0.8, 0.7]` this gives
`min(0.9 + 0.8·(1/2)·0.3 + 0.7·(1/3)·0.3, 1) = 1`. -/
theorem calculate_base_score_spec (kws : List FraudKeyword)
    (h01 : ∀ kw ∈ kws, 0 ≤ kw.score ∧ kw.score ≤ 1) :
    (kws = [] → calculate_base_score kws = 0) ∧
    (∀ s, (kws.map FraudKeyword.score).insertionSort (· ≥ ·) = [s] →
      calculate_base_score kws = s) ∧
    (∀ s snd rest, (kws.map FraudKeyword.score).insertionSort (· ≥ ·) = s :: snd :: rest →
      calculate_base_score kws
        = min (s + ∑ i ∈ Finset.range (snd :: rest).length,
            (snd :: rest).getD i 0 * (1 / ((i : ℚ) + 2)) * (3/10)) 1) ∧
    calculate_base_score [⟨"scam", .scam, 9/10, "Direct scam reference"⟩,
        ⟨"double your money", .investment, 8/10, "Unrealistic returns"⟩,
        ⟨"fake", .scam, 7/10, "Potentially fake content"⟩]
      = min (9/10 + (8/10) * ((1:ℚ)/2) * (3/10) + (7/10) * ((1:ℚ)/3) * (3/10)) 1 := by
  refine ⟨fun he => ?_, fun s hs => ?_, fun s snd rest hs => ?_, ?_⟩
  · subst he
    rfl
  · unfold calculate_base_score
    rw [hs]
  · unfold calculate_base_score
    rw [hs]
    show min (s + extraSum (snd :: rest) 1) 1 = _
    rw [extraSum_eq_sum]
    have : ∀ i ∈ Finset.range (snd :: rest).length,
        (snd :: rest).getD i 0 * (1 / ((1 : ℕ) + (i : ℚ) + 1)) * (3/10)
          = (snd :: rest).getD i 0 * (1 / ((i : ℚ) + 2)) * (3/10) := by
      intro i _
      push_cast
      ring_nf
    rw [Finset.sum_congr rfl this]
  · norm_num [calculate_base_score, extraSum, List.insertionSort, List.orderedInsert]

/-- C2 witness: the two-or-more branch at the concrete sorted scores
`[0.9, 0.8, 0.7]`. -/
theorem calculate_base_score_spec_witness :
    (∀ kw ∈ [(⟨"scam", .scam, 9/10, "Direct scam reference"⟩ : FraudKeyword),
        ⟨"double your money", .investment, 8/10, "Unrealistic returns"⟩,
        ⟨"fake", .scam, 7/10, "Potentially fake content"⟩], 0 ≤ kw.score ∧ kw.score ≤ 1) ∧
    calculate_base_score [⟨"scam", .scam, 9/10, "Direct scam reference"⟩,
        ⟨"double your money", .investment, 8/10, "Unrealistic returns"⟩,
        ⟨"fake", .scam, 7/10, "Potentially fake content"⟩]
      = min (9/10 + (8/10) * ((1:ℚ)/2) * (3/10) + (7/10) * ((1:ℚ)/3) * (3/10)) 1 :=
  ⟨by norm_num,
    (calculate_base_score_spec [⟨"scam", .scam, 9/10, "Direct scam reference"⟩,
        ⟨"double your money", .investment, 8/10, "Unrealistic returns"⟩,
        ⟨"fake", .scam, 7/10, "Potentially fake content"⟩] (by norm_num)).2.2.2⟩

/-- C3: for keyword scores in `[0,1]` and any contextual factors, the
final score `min(base_score × contextual_multiplier + category_bonus,
1)` lies in `[0,1]`. -/
theorem final_score_in_unit_interval (kws : List FraudKeyword) (f : ContextualFactors)
    (h : ∀ kw ∈ kws, 0 ≤ kw.score ∧ kw.score ≤ 1) :
    0 ≤ (calculate_advanced_score kws f).final_score ∧
    (calculate_advanced_score kws f).final_score ≤ 1 ∧
    (calculate_advanced_score kws f).final_score
      = min (calculate_base_score kws * calculate_contextual_multiplier f
          + calculate_category_diversity_bonus kws) 1 := by
  have hb := base_score_nonneg kws (fun kw hkw => (h kw hkw).1)
  have hm := contextual_multiplier_nonneg f
  have hc := category_bonus_nonneg kws
  refine ⟨?_, ?_, rfl⟩
  · exact le_min (add_nonneg (mul_nonneg hb hm) hc) (by norm_num)
  · exact min_le_right _ _

/-- C3 witness: the bound at one matched keyword and non-trivial
contextual factors. -/
theorem final_score_in_unit_interval_witness :
    (∀ kw ∈ [(⟨"scam", .scam, 9/10, "Direct scam reference"⟩ : FraudKeyword)],
      0 ≤ kw.score ∧ kw.score ≤ 1) ∧
    (0 ≤ (calculate_advanced_score [⟨"scam", .scam, 9/10, "Direct scam reference"⟩]
        ⟨none, none, 10, true, none, ["urgent"], ["money"], []⟩).final_score ∧
      (calculate_advanced_score [⟨"scam", .scam, 9/10, "Direct scam reference"⟩]
        ⟨none, none, 10, true, none, ["urgent"], ["money"], []⟩).final_score ≤ 1) :=
  ⟨by norm_num,
    ⟨(final_score_in_unit_interval [⟨"scam", .scam, 9/10, "Direct scam reference"⟩]
        ⟨none, none, 10, true, none, ["urgent"], ["money"], []⟩ (by norm_num)).1,
      (final_score_in_unit_interval [⟨"scam", .scam, 9/10, "Direct scam reference"⟩]
        ⟨none, none, 10, true, none, ["urgent"], ["money"], []⟩ (by norm_num)).2.1⟩⟩

lemma send_many_within_window (us : List ℚ) :
    ∀ (W : ℚ) (N : ℕ) (vs : List ℚ) (sent supp : ℕ),
      (∀ a ∈ vs ++ us, ∀ b ∈ us, b - a < W) → vs.length + us.length ≤ N →
      send_many ⟨W, N, vs, sent, supp⟩ us
        = (List.replicate us.length true, ⟨W, N, vs ++ us, sent + 2 * us.length, supp⟩) := by
  induction us with
  | nil =>
    intro W N vs sent supp _ _
    simp [send_many]
  | cons u rest ih =>
    intro W N vs sent supp hall hlen
    have hkeep : vs.filter (fun t => decide (u - W < t)) = vs := by
      apply List.filter_eq_self.mpr
      intro a ha
      simp only [decide_eq_true_eq]
      have := hall a (List.mem_append_left _ ha) u (by simp)
      linarith
    have hlt : vs.length < N := by
      simp only [List.length_cons] at hlen
      omega
    have hstep : send_alert ⟨W, N, vs, sent, supp⟩ u
        = (true, ⟨W, N, vs ++ [u], sent + 1 + 1, supp⟩) := by
      simp only [send_alert, should_send_alert, hkeep]
      rw [if_pos (by simpa using hlt)]
    have hall' : ∀ a ∈ (vs ++ [u]) ++ rest, ∀ b ∈ rest, b - a < W := by
      intro a ha b hb
      rcases List.mem_append.mp ha with h1 | h1
      · rcases List.mem_append.mp h1 with h2 | h2
        · exact hall a (List.mem_append_left _ h2) b (List.mem_cons_of_mem u hb)
        · have : a = u := by simpa using h2
          subst this
          exact hall a (List.mem_append_right _ (by simp)) b (List.mem_cons_of_mem a hb)
      · exact hall a (List.mem_append_right _ (List.mem_cons_of_mem u h1)) b
          (List.mem_cons_of_mem u hb)
    have hlen' : (vs ++ [u]).length + rest.length ≤ N := by
      simp only [List.length_append, List.length_singleton]
      simp only [List.length_cons] at hlen
      omega
    have := ih W N (vs ++ [u]) (sent + 1 + 1) supp hall' hlen'
    simp only [send_many, hstep, this]
    refine Prod.ext ?_ ?_
    · simp [List.replicate_succ]
    · simp only [List.append_assoc, List.singleton_append, List.length_cons,
        RateLimiterState.mk.injEq, and_true, true_and]
      omega

/-- C7 counterexample: the claim's "on a successful send ... the
sent-count is incremented" fails: one successful send from a fresh state
increments `alerts_sent` twice (once in `_update_rate_limit` and once
more in `send_alert`), giving 2 instead of 1. -/
theorem send_alert_double_increments_sent_count :
    (send_alert ⟨300, 10, [], 0, 0⟩ 0).1 = true ∧
    (send_alert ⟨300, 10, [], 0, 0⟩ 0).2.alerts_sent = 2 ∧
    (send_alert ⟨300, 10, [], 0, 0⟩ 0).2.alerts_sent ≠ 0 + 1 := by
  norm_num [send_alert, should_send_alert]

/-- C7 (amended): on every attempt the timestamps at or before
`now − window` are pruned first; if the remaining count reaches the
maximum the alert is suppressed (suppressed-count incremented, nothing
appended, sent-count unchanged), else the timestamp is appended and the
sent-count is incremented twice.  Consequently N sends within one window
from a fresh limiter all succeed, the (N+1)th inside the window is
suppressed leaving the timestamps unchanged, and a send after the window
has elapsed succeeds again. -/
theorem rate_limiter_window_behavior (W : ℚ) (N : ℕ) (ts : List ℚ) (u u' : ℚ)
    (hN : 1 ≤ N) (hlen : ts.length = N)
    (hwin : ∀ a ∈ u :: ts, ∀ b ∈ u :: ts, a - b < W)
    (hafter : ∀ t ∈ ts, t ≤ u' - W) :
    (send_many ⟨W, N, [], 0, 0⟩ ts).1 = List.replicate N true ∧
    (send_many ⟨W, N, [], 0, 0⟩ ts).2 = ⟨W, N, ts, 2 * N, 0⟩ ∧
    send_alert ⟨W, N, ts, 2 * N, 0⟩ u = (false, ⟨W, N, ts, 2 * N, 1⟩) ∧
    (send_alert ⟨W, N, ts, 2 * N, 1⟩ u').1 = true ∧
    (∀ (s : RateLimiterState) (now : ℚ),
      (s.max_alerts_per_window
          ≤ (s.recent_alerts.filter (fun t => decide (now - s.rate_limit_window < t))).length →
        send_alert s now = (false, ⟨s.rate_limit_window, s.max_alerts_per_window,
          s.recent_alerts.filter (fun t => decide (now - s.rate_limit_window < t)),
          s.alerts_sent, s.alerts_suppressed + 1⟩)) ∧
      ((s.recent_alerts.filter (fun t => decide (now - s.rate_limit_window < t))).length
          < s.max_alerts_per_window →
        send_alert s now = (true, ⟨s.rate_limit_window, s.max_alerts_per_window,
          s.recent_alerts.filter (fun t => decide (now - s.rate_limit_window < t)) ++ [now],
          s.alerts_sent + 2, s.alerts_suppressed⟩))) := by
  have hmain := send_many_within_window ts W N [] 0 0
    (fun a ha b hb => hwin b (List.mem_cons_of_mem u hb) a
      (List.mem_cons_of_mem u (by simpa using ha)))
    (by simp [hlen])
  have hkeepu : ts.filter (fun t => decide (u - W < t)) = ts := by
    apply List.filter_eq_self.mpr
    intro a ha
    simp only [decide_eq_true_eq]
    have := hwin u (by simp) a (List.mem_cons_of_mem u ha)
    linarith
  have hdropu : ts.filter (fun t => decide (u' - W < t)) = [] := by
    apply List.filter_eq_nil_iff.mpr
    intro a ha
    simp only [decide_eq_true_eq, not_lt]
    have := hafter a ha
    linarith
  refine ⟨?_, ?_, ?_, ?_, ?_⟩
  · rw [hmain]
    simp [hlen]
  · rw [hmain]
    simp [hlen]
  · simp only [send_alert, should_send_alert, hkeepu, hlen]
    rw [if_neg (by simp)]
  · simp only [send_alert, should_send_alert, hdropu]
    rw [if_pos (by simpa using Nat.lt_of_lt_of_le Nat.zero_lt_one hN)]
  · intro s now
    constructor
    · intro hge
      simp only [send_alert, should_send_alert]
      rw [if_neg (by simpa using Nat.not_lt.mpr hge)]
    · intro hlt'
      simp only [send_alert, should_send_alert]
      rw [if_pos (by simpa using hlt')]

/-- C7 witness: window 1, maximum 2, two sends at time 0 succeed, a
third at time 0 is suppressed, and a send at time 1 succeeds again. -/
theorem rate_limiter_window_behavior_witness :
    ((1:ℕ) ≤ 2 ∧ ([0, 0] : List ℚ).length = 2 ∧
      (∀ a ∈ (0:ℚ) :: [0, 0], ∀ b ∈ (0:ℚ) :: [0, 0], a - b < 1) ∧
      (∀ t ∈ ([0, 0] : List ℚ), t ≤ 1 - 1)) ∧
    ((send_many ⟨1, 2, [], 0, 0⟩ [0, 0]).1 = List.replicate 2 true ∧
      (send_many ⟨1, 2, [], 0, 0⟩ [0, 0]).2 = ⟨1, 2, [0, 0], 2 * 2, 0⟩ ∧
      send_alert ⟨1, 2, [0, 0], 2 * 2, 0⟩ 0 = (false, ⟨1, 2, [0, 0], 2 * 2, 1⟩) ∧
      (send_alert ⟨1, 2, [0, 0], 2 * 2, 1⟩ 1).1 = true) := by
  have h1 : (1:ℕ) ≤ 2 := by norm_num
  have h2 : ([0, 0] : List ℚ).length = 2 := by norm_num
  have h3 : ∀ a ∈ (0:ℚ) :: [0, 0], ∀ b ∈ (0:ℚ) :: [0, 0], a - b < 1 := by
    intro a ha b hb
    simp only [List.mem_cons, List.not_mem_nil, or_false] at ha hb
    rcases ha with rfl | rfl | rfl <;> rcases hb with rfl | rfl | rfl <;> norm_num
  have h4 : ∀ t ∈ ([0, 0] : List ℚ), t ≤ 1 - 1 := by
    intro t ht
    simp only [List.mem_cons, List.not_mem_nil, or_false] at ht
    rcases ht with rfl | rfl <;> norm_num
  have := rate_limiter_window_behavior 1 2 [0, 0] 0 1 h1 h2 h3 h4
  exact ⟨⟨h1, h2, h3, h4⟩, ⟨this.1, this.2.1, this.2.2.1, this.2.2.2.1⟩⟩
